import Mathlib

/-!
Shallow embedding of the ADDL issue tracker (`src/issue_tracker.py`).

The program keeps a table of issue rows in a shared spreadsheet.  Cells as
returned by the spreadsheet client (`get_all_records`) are either integers
(numericised) or strings; we model them with `Cell`.  The backing store is a
grid of rows of cells, the first row being the header.  A pandas `DataFrame`
is modelled as `DF`: a list of column names plus a list of rows, each row a
list of cells aligned with the columns.
-/

namespace IssueTracker

/-- A spreadsheet / DataFrame cell: the spreadsheet client returns numeric
cells as integers and everything else as strings. -/
inductive Cell where
  | intV (i : Int)
  | strV (s : String)
deriving DecidableEq, Repr

/-- Python `str(cell)` (pandas `astype(str)`). -/
def cellStr : Cell → String
  | .intV i => toString i
  | .strV s => s

/-- Is the cell an integer cell? -/
def Cell.isInt : Cell → Bool
  | .intV _ => true
  | .strV _ => false

/-- The integer carried by an integer cell (junk 0 on strings). -/
def cellInt : Cell → Int
  | .intV i => i
  | .strV _ => 0

/-- Python whitespace characters stripped by `str.strip()` (ASCII subset). -/
def isPySpace (c : Char) : Bool :=
  c = ' ' || c = '\t' || c = '\n' || c = '\r' || c = '\x0b' || c = '\x0c'

/-- Python `str.strip()`. -/
def pyStrip (s : String) : String :=
  ⟨((s.toList.dropWhile isPySpace).reverse.dropWhile isPySpace).reverse⟩

/-- Python `int(x)`: identity on integers, integer parse on strings
(`int("")` raises `ValueError`, modelled as `Except.error`). -/
def pyInt : Cell → Except Unit Int
  | .intV i => .ok i
  | .strV s =>
    match (pyStrip s).toInt? with
    | some i => .ok i
    | none => .error ()

/-- `EXPECTED_COLUMNS` from `issue_tracker.py`. -/
def EXPECTED_COLUMNS : List String :=
  ["Issue ID", "Date Reported", "Reported By", "Category", "Subcategory",
   "Lab Section", "Species", "Description", "Action Taken",
   "Resolution Date", "Notes"]

/-- The backing Google Sheet: a grid of rows of cells; row 1 is the header. -/
structure Store where
  grid : List (List Cell)
deriving DecidableEq, Repr

/-- A pandas DataFrame: column names and rows of cells (each row aligned
positionally with `cols`). -/
structure DF where
  cols : List String
  rows : List (List Cell)
deriving DecidableEq, Repr

/-- Index of a column name in a column list (first occurrence; the length
of the list when absent). -/
def colIdx (cols : List String) (c : String) : Nat :=
  match cols with
  | [] => 0
  | c2 :: cs => if c2 = c then 0 else colIdx cs c + 1

/-- The column of cells under column name `c` (pandas `df[c]`); positions
outside a row read as the empty string. -/
def DF.getCol (df : DF) (c : String) : List Cell :=
  df.rows.map (fun r => r.getD (colIdx df.cols c) (Cell.strV ""))

/-- `_ensure_header`: `sheet.row_values(1)` is empty exactly when the sheet
has no first row (or a blank one); in that case the expected header is
inserted as row 1. -/
def ensureHeader (s : Store) : Store :=
  if s.grid.headD [] = [] then ⟨(EXPECTED_COLUMNS.map Cell.strV) :: s.grid⟩
  else s

/-- Pad a data row to the header width with blank cells, as
`get_all_records` does for short rows. -/
def padTo (n : Nat) (r : List Cell) : List Cell :=
  r ++ List.replicate (n - r.length) (Cell.strV "")

/-- `sheet.get_all_records()`: each data row becomes a record keyed by the
header row (read as strings). -/
def getAllRecords (s : Store) : List (List (String × Cell)) :=
  let header := (s.grid.headD []).map cellStr
  s.grid.tail.map (fun r => header.zip (padTo header.length r))

/-- Keys of a record in first-occurrence order (Python dict key order). -/
def dictKeys (r : List (String × Cell)) : List String :=
  (r.map Prod.fst).dedup

/-- Value of a record at a key: the last binding wins (Python dict
semantics); absent keys read as the empty string. -/
def dictGet (r : List (String × Cell)) (k : String) : Cell :=
  (((r.filter (fun p => p.1 = k)).getLast?).map Prod.snd).getD (Cell.strV "")

/-- `pd.DataFrame(records)`: columns are the union of the records' keys in
first-seen order; each row is read off its record. -/
def dfFromRecords (recs : List (List (String × Cell))) : DF :=
  let cols := (recs.flatMap (fun r => r.map Prod.fst)).dedup
  ⟨cols, recs.map (fun r => cols.map (dictGet r))⟩

/-- The `for col in EXPECTED_COLUMNS: if col not in df.columns: df[col] = ""`
loop, one column at a time. -/
def addMissingCols : List String → DF → DF
  | [], d => d
  | c :: cs, d =>
    addMissingCols cs
      (if c ∈ d.cols then d
       else ⟨d.cols ++ [c], d.rows.map (fun r => r ++ [Cell.strV ""])⟩)

/-- Backfill every expected column that is missing with empty strings. -/
def addMissing (d : DF) : DF := addMissingCols EXPECTED_COLUMNS d

/-- `df[cs]`: select (and reorder) the named columns. -/
def reindex (d : DF) (cs : List String) : DF :=
  ⟨cs, d.rows.map (fun r => cs.map (fun c => r.getD (colIdx d.cols c) (Cell.strV "")))⟩

/-- `load_issues()`: ensure the header, read all records; an empty record
set yields an empty DataFrame with the expected columns, otherwise missing
expected columns are backfilled and the expected columns selected in
order.  Returns the (possibly header-initialised) store and the frame. -/
def load_issues (s : Store) : Store × DF :=
  let s1 := ensureHeader s
  let recs := getAllRecords s1
  let df :=
    if recs = [] then ⟨EXPECTED_COLUMNS, []⟩
    else reindex (addMissing (dfFromRecords recs)) EXPECTED_COLUMNS
  (s1, df)

/-- `save_issues(df)`: clear the sheet and write the expected header row
followed by `df[EXPECTED_COLUMNS].astype(str)`. -/
def save_issues (df : DF) : Store :=
  ⟨(EXPECTED_COLUMNS.map Cell.strV) ::
    (reindex df EXPECTED_COLUMNS).rows.map (fun r => r.map (fun c => Cell.strV (cellStr c)))⟩

/-- One comparison step of pandas `Series.max` on an object column: ints
compare numerically, strings lexicographically, mixed raises `TypeError`. -/
def cellMax2 : Cell → Cell → Except Unit Cell
  | .intV a, .intV b => .ok (.intV (max a b))
  | .strV a, .strV b => .ok (.strV (max a b))
  | _, _ => .error ()

/-- pandas `series.max()` over a non-empty column (empty is ruled out by
the `df.empty` guard at the call site). -/
def seriesMax (cs : List Cell) : Except Unit Cell :=
  match cs with
  | [] => .error ()
  | c :: rest => rest.foldlM cellMax2 c

/-- `int(df["Issue ID"].max()) + 1 if not df.empty else 1` (the loaded
frame always has the 11 expected columns, so `df.empty` is `rows = []`). -/
def newIssueId (df : DF) : Except Unit Int :=
  if df.rows = [] then .ok 1
  else do
    let m ← seriesMax (df.getCol "Issue ID")
    let i ← pyInt m
    .ok (i + 1)

/-- The eleven input fields collected by the Add New Issue page
(`resolution_date` already `strftime`-formatted, `none` when unset). -/
structure AddInput where
  reported_by : String
  category : String
  subcategory : List String
  lab_section : List String
  species : List String
  description : String
  action_taken : String
  resolution_date : Option String
  notes : String
deriving DecidableEq, Repr

/-- `", ".join(l) if l else ""`. -/
def joinSel (l : List String) : String :=
  if l = [] then "" else String.intercalate ", " l

/-- The `new_issue` dict, in the expected column order. -/
def newRow (now : String) (inp : AddInput) (id : Int) : List Cell :=
  [Cell.intV id, Cell.strV now, Cell.strV inp.reported_by,
   Cell.strV inp.category, Cell.strV (joinSel inp.subcategory),
   Cell.strV (joinSel inp.lab_section), Cell.strV (joinSel inp.species),
   Cell.strV inp.description, Cell.strV inp.action_taken,
   Cell.strV (inp.resolution_date.getD ""), Cell.strV inp.notes]

/-- Outcomes of pressing the Add Issue button: the three validation
`st.error` branches, and the `ValueError`/`TypeError` that
`int(df["Issue ID"].max())` can raise. -/
inductive AddError where
  | categoryUnselected
  | emptyDescription
  | missingSubcategory
  | idError
deriving DecidableEq, Repr

/-- The Add Issue button handler: the three validation checks in source
order; on success it reloads the store, computes the next id, concatenates
the new row (`pd.concat`, identical columns) and persists.  Returns the
resulting store (unchanged when nothing was written) together with either
the new frame and id or the error raised. -/
def addIssue (s : Store) (now : String) (inp : AddInput) :
    Store × Except AddError (DF × Int) :=
  if inp.category = "— Select —" then
    (s, .error .categoryUnselected)
  else if pyStrip inp.description = "" then
    (s, .error .emptyDescription)
  else if (inp.category = "Mailing Room" ∨ inp.category = "Client Communication")
      ∧ inp.subcategory = [] then
    (s, .error .missingSubcategory)
  else
    let s1 := (load_issues s).1
    let df := (load_issues s).2
    match newIssueId df with
    | .error _ => (s1, .error .idError)
    | .ok i =>
      let df2 : DF := ⟨df.cols, df.rows ++ [newRow now inp i]⟩
      (save_issues df2, .ok (df2, i))

/-!  Aggregations of the Analytics Dashboard.  -/

/-- `"" ↦ pd.NA` (the `.replace("", pd.NA)` step). -/
def blankToNA (s : String) : Option String :=
  if s = "" then none else some s

/-- Left-to-right, non-overlapping split of a character list on the
two-character separator `", "` (Python `str.split(", ")`), accumulating
the current field in reverse. -/
def splitCommaSpace : List Char → List Char → List (List Char)
  | [], acc => [acc.reverse]
  | [c], acc => [(c :: acc).reverse]
  | c1 :: c2 :: cs, acc =>
    if c1 = ',' ∧ c2 = ' ' then acc.reverse :: splitCommaSpace cs []
    else splitCommaSpace (c2 :: cs) (c1 :: acc)

/-- Python `s.split(", ")`. -/
def pySplitCommaSpace (s : String) : List String :=
  (splitCommaSpace s.toList []).map (fun l => ⟨l⟩)

/-- The multi-valued tally pipeline
`col.astype(str).replace("", pd.NA).dropna().str.split(", ").explode().value_counts()`,
read off at one label: how many exploded entries equal `label`.
(`lab_counts` is this at column "Lab Section", `species_counts` at
"Species".) -/
def countsByMultivalue (df : DF) (col : String) (label : String) : Nat :=
  (((((df.getCol col).map cellStr).map blankToNA).reduceOption).map
      pySplitCommaSpace).flatten.count label

/-- The four Analytics Dashboard metrics. -/
structure Stats where
  total : Nat
  resolved : Nat
  open_issues : Nat
  rate : Option ℚ
deriving DecidableEq, Repr

/-- The metrics block of the Analytics Dashboard: computed only when the
frame is non-empty; `resolved` counts rows whose "Resolution Date" string
has positive length; the rate is shown only when `len(df) > 0`. -/
def resolutionStats (df : DF) : Option Stats :=
  if df.rows = [] then none
  else
    let total := df.rows.length
    let resolved :=
      ((df.getCol "Resolution Date").map cellStr).countP (fun s => s.length > 0)
    some ⟨total, resolved, total - resolved,
      if df.rows.length > 0 then
        some ((resolved : ℚ) / (total : ℚ) * 100)
      else none⟩

/-!  Search.  The View Issues page filters with
`row.astype(str).str.contains(search, case=False).any()`.  pandas
`str.contains` treats the keyword as a REGULAR EXPRESSION (`regex=True` is
the default), matched case-insensitively anywhere in the cell string
(`re.search` with `re.IGNORECASE`).  We embed the fragment of Python's
regex language the keywords of interest exercise: literal characters, the
wildcard `.`, and the postfix quantifiers `*`, `+`, `?`.  Patterns using
any other metacharacter are outside the model (`pyReParse` returns
`none`), so `searchDF` is `Option`-valued. -/

/-- A regex atom: the wildcard `.` or a literal character. -/
inductive RAtom where
  | anyChar
  | lit (c : Char)
deriving DecidableEq, Repr

/-- A postfix quantifier on an atom. -/
inductive RQuant where
  | one
  | star
  | plus
  | opt
deriving DecidableEq, Repr

/-- Python regex metacharacters. -/
def isMeta (c : Char) : Bool :=
  c = '.' || c = '^' || c = '$' || c = '*' || c = '+' || c = '?' ||
  c = '[' || c = ']' || c = '\\' || c = '|' || c = '(' || c = ')' ||
  c = Char.ofNat 123 || c = Char.ofNat 125

/-- Parse one pattern character into an atom (metacharacters other than
`.` are outside the modelled fragment). -/
def parseAtom (c : Char) : Option RAtom :=
  if c = '.' then some RAtom.anyChar
  else if isMeta c then none
  else some (RAtom.lit c)

/-- Parse a pattern into a token list: each atom optionally followed by a
quantifier. -/
def parseToks : List Char → Option (List (RAtom × RQuant))
  | [] => some []
  | [c] =>
    match parseAtom c with
    | none => none
    | some a => some [(a, RQuant.one)]
  | c :: q :: rest2 =>
    match parseAtom c with
    | none => none
    | some a =>
      if q = '*' then (parseToks rest2).map (fun ts => (a, RQuant.star) :: ts)
      else if q = '+' then (parseToks rest2).map (fun ts => (a, RQuant.plus) :: ts)
      else if q = '?' then (parseToks rest2).map (fun ts => (a, RQuant.opt) :: ts)
      else (parseToks (q :: rest2)).map (fun ts => (a, RQuant.one) :: ts)

/-- `re.search(pattern, subject)` compiled with `re.IGNORECASE`. -/
def pyReParse (pat : String) : Option (List (RAtom × RQuant)) :=
  parseToks pat.toList

/-- Does the atom match the character, ignoring case?  (`.` matches any
character except a newline.) -/
def atomMatch (a : RAtom) (c : Char) : Bool :=
  match a with
  | .anyChar => c ≠ '\n'
  | .lit l => l.toLower = c.toLower

/-- Does the token list match some prefix of the character list?
(Backtracking; for a boolean result greediness is irrelevant.) -/
def reMatchHere : List (RAtom × RQuant) → List Char → Bool
  | [], _ => true
  | (a, RQuant.one) :: ts, s =>
    match s with
    | [] => false
    | c :: cs => atomMatch a c && reMatchHere ts cs
  | (a, RQuant.opt) :: ts, s =>
    reMatchHere ts s ||
      (match s with
       | [] => false
       | c :: cs => atomMatch a c && reMatchHere ts cs)
  | (a, RQuant.plus) :: ts, s =>
    (match s with
     | [] => false
     | c :: cs => atomMatch a c && reMatchHere ((a, RQuant.star) :: ts) cs)
  | (a, RQuant.star) :: ts, s =>
    reMatchHere ts s ||
      (match s with
       | [] => false
       | c :: cs => atomMatch a c && reMatchHere ((a, RQuant.star) :: ts) cs)
termination_by ts s => (s.length, ts.length)

/-- `re.search`: try a match at every start position. -/
def reSearchFrom (ts : List (RAtom × RQuant)) : List Char → Bool
  | [] => reMatchHere ts []
  | c :: cs => reMatchHere ts (c :: cs) || reSearchFrom ts cs

/-- The search filter of the View Issues page: an empty keyword leaves the
frame unfiltered (`if search:`); otherwise keep the rows in which some
cell's string form matches the keyword-as-regex, case-insensitively.
`none` when the keyword uses regex syntax outside the modelled fragment. -/
def searchDF (df : DF) (kw : String) : Option DF :=
  if kw = "" then some df
  else
    (pyReParse kw).map (fun ts =>
      ⟨df.cols, df.rows.filter (fun r => r.any (fun c => reSearchFrom ts (cellStr c).toList))⟩)

/-- Case-insensitive literal substring containment (what the spec claims
`search` does). -/
def containsCI (s pat : String) : Bool :=
  decide (pat.toList.map Char.toLower <:+: s.toList.map Char.toLower)

/-- The token list of a purely literal pattern. -/
def litToks (l : List Char) : List (RAtom × RQuant) :=
  l.map (fun c => (RAtom.lit c, RQuant.one))

/-!  Spec-side formulations and concrete inputs used by the claims.  -/

/-- Rows are positionally aligned with the column list. -/
def DF.wf (d : DF) : Prop := ∀ r ∈ d.rows, r.length = d.cols.length

/-- The header row of the store, as strings. -/
def storeHeader (s : Store) : List String := (s.grid.headD []).map cellStr

/-- `max(ids, default 0)`: the maximum of a list of integers, `0` when the
list is empty. -/
def idsMax : List Int → Int
  | [] => 0
  | x :: xs => xs.foldl max x

/-- The spec's three validation failures on a submission. -/
def invalidInput (inp : AddInput) : Prop :=
  inp.category = "— Select —" ∨ pyStrip inp.description = "" ∨
    ((inp.category = "Mailing Room" ∨ inp.category = "Client Communication")
      ∧ inp.subcategory = [])

/-- Which `st.error` branch fires first on an invalid submission. -/
def firstError (inp : AddInput) : AddError :=
  if inp.category = "— Select —" then .categoryUnselected
  else if pyStrip inp.description = "" then .emptyDescription
  else .missingSubcategory

/-- The spec's reading of the multi-valued tally: split each cell on
`", "`, discard empty cells, flatten, count. -/
def specMultiCount (cells : List String) (label : String) : Nat :=
  ((cells.filter (fun s => s ≠ "")).flatMap pySplitCommaSpace).count label

/-- The expected header as a row of cells. -/
def hdrRow : List Cell := EXPECTED_COLUMNS.map Cell.strV

/-- A full data row with the given id, lab sections and resolution date. -/
def sampleRow (i : Int) (lab : String) (res : String) : List Cell :=
  [Cell.intV i, Cell.strV "2024-01-01 09:00:00", Cell.strV "al",
   Cell.strV "Other", Cell.strV "", Cell.strV lab, Cell.strV "",
   Cell.strV "desc", Cell.strV "", Cell.strV res, Cell.strV ""]

/-- A store whose existing issue ids are 1, 2 and 5. -/
def store125 : Store :=
  ⟨hdrRow :: [sampleRow 1 "Avian" "", sampleRow 2 "" "", sampleRow 5 "" ""]⟩

/-- A well-formed submission (category "Other", non-blank description). -/
def inpOK : AddInput :=
  ⟨"al", "Other", [], [], [], "box crushed", "", none, ""⟩

/-- A submission violating the subcategory requirement. -/
def inpBad : AddInput :=
  ⟨"al", "Mailing Room", [], [], [], "box crushed", "", none, ""⟩

/-- A store whose header lacks the "Issue ID" column. -/
def storeNoId : Store :=
  ⟨[[Cell.strV "Description"], [Cell.strV "pump broke"]]⟩

/-- A store with an extra, non-canonical column. -/
def storeExtra : Store :=
  ⟨[[Cell.strV "Issue ID", Cell.strV "Extra"],
    [Cell.intV 1, Cell.strV "stray"]]⟩

/-- A one-row frame whose only cell is "abc" (no literal dot anywhere). -/
def dfDot : DF := ⟨["Description"], [[Cell.strV "abc"]]⟩

/-- A two-row frame for exercising the search filter. -/
def dfKW : DF :=
  ⟨["Description"], [[Cell.strV "Broken Sample"], [Cell.strV "fees query"]]⟩

/-- A frame whose "Lab Section" column holds "Avian, Virology" and
"Avian". -/
def dfC5 : DF :=
  ⟨["Lab Section"], [[Cell.strV "Avian, Virology"], [Cell.strV "Avian"]]⟩

/-- A four-row frame with exactly one non-empty resolution date. -/
def df4 : DF :=
  ⟨EXPECTED_COLUMNS,
   [sampleRow 1 "" "", sampleRow 2 "" "", sampleRow 3 "" "2024-02-02",
    sampleRow 4 "" ""]⟩

/-!  ## Helper lemmas about column lookup  -/

instance {ε α : Type} [DecidableEq ε] [DecidableEq α] :
    DecidableEq (Except ε α) := fun x y =>
  match x, y with
  | .error a, .error b =>
    if h : a = b then isTrue (by rw [h]) else isFalse (by intro he; cases he; exact h rfl)
  | .error _, .ok _ => isFalse (by intro h; cases h)
  | .ok _, .error _ => isFalse (by intro h; cases h)
  | .ok a, .ok b =>
    if h : a = b then isTrue (by rw [h]) else isFalse (by intro he; cases he; exact h rfl)

instance (inp : AddInput) : Decidable (invalidInput inp) := by
  unfold invalidInput
  infer_instance

theorem colIdx_lt_length {cols : List String} {c : String} (h : c ∈ cols) :
    colIdx cols c < cols.length := by
  induction cols with
  | nil => cases h
  | cons c2 cs ih =>
    by_cases h2 : c2 = c
    · simp [colIdx, h2]
    · have hc : c ∈ cs := by
        rcases List.mem_cons.mp h with h | h
        · exact absurd h.symm h2
        · exact h
      simp only [colIdx, if_neg h2, List.length_cons]
      exact Nat.succ_lt_succ (ih hc)

theorem colIdx_append_left {l1 l2 : List String} {c : String} (h : c ∈ l1) :
    colIdx (l1 ++ l2) c = colIdx l1 c := by
  induction l1 with
  | nil => cases h
  | cons c2 cs ih =>
    by_cases h2 : c2 = c
    · simp [colIdx, h2]
    · have hc : c ∈ cs := by
        rcases List.mem_cons.mp h with h | h
        · exact absurd h.symm h2
        · exact h
      simp [colIdx, if_neg h2, ih hc]

theorem colIdx_append_right {l1 l2 : List String} {c : String} (h : c ∉ l1) :
    colIdx (l1 ++ l2) c = l1.length + colIdx l2 c := by
  induction l1 with
  | nil => simp [colIdx]
  | cons c2 cs ih =>
    have h2 : c2 ≠ c := fun e => h (e ▸ List.mem_cons_self c2 cs)
    have hc : c ∉ cs := fun e => h (List.mem_cons_of_mem _ e)
    show (if c2 = c then 0 else colIdx (cs ++ l2) c + 1) = (c2 :: cs).length + colIdx l2 c
    rw [if_neg h2, ih hc, List.length_cons]
    omega

theorem getD_append_lt {α : Type} {l l2 : List α} {d : α} {i : Nat}
    (h : i < l.length) : (l ++ l2).getD i d = l.getD i d := by
  simp [List.getD_eq_getElem?_getD, List.getElem?_append_left h]

theorem getD_append_len {α : Type} {l l2 : List α} {d : α} :
    (l ++ l2).getD l.length d = l2.getD 0 d := by
  simp [List.getD_eq_getElem?_getD, List.getElem?_append_right (Nat.le_refl _)]

theorem getD_map_colIdx {E : List String} {c : String} (h : c ∈ E)
    (f : String → Cell) (d : Cell) : (E.map f).getD (colIdx E c) d = f c := by
  induction E with
  | nil => cases h
  | cons c2 cs ih =>
    by_cases h2 : c2 = c
    · simp [colIdx, h2]
    · have hc : c ∈ cs := by
        rcases List.mem_cons.mp h with h | h
        · exact absurd h.symm h2
        · exact h
      simp only [List.map_cons, colIdx, if_neg h2, List.getD_cons_succ]
      exact ih hc

theorem getCol_reindex {d : DF} {E : List String} {c : String} (hc : c ∈ E) :
    (reindex d E).getCol c = d.getCol c := by
  unfold reindex DF.getCol
  simp only [List.map_map]
  congr 1
  funext r
  exact getD_map_colIdx hc _ _

theorem reindex_rows_length (d : DF) (E : List String) :
    (reindex d E).rows.length = d.rows.length := by
  simp [reindex]

/-!  ## Lemmas about the backfill loop  -/

theorem extend_wf {d : DF} (h : d.wf) (c : String) :
    DF.wf ⟨d.cols ++ [c], d.rows.map (fun r => r ++ [Cell.strV ""])⟩ := by
  intro r hr
  simp only [List.mem_map] at hr
  obtain ⟨r0, hr0, rfl⟩ := hr
  simp [h r0 hr0]

theorem addMissingCols_rows_length (cs : List String) (d : DF) :
    (addMissingCols cs d).rows.length = d.rows.length := by
  induction cs generalizing d with
  | nil => rfl
  | cons c cs ih =>
    simp only [addMissingCols]
    by_cases h : c ∈ d.cols
    · rw [if_pos h]; exact ih d
    · rw [if_neg h, ih]; simp

theorem addMissingCols_wf {cs : List String} {d : DF} (h : d.wf) :
    (addMissingCols cs d).wf := by
  induction cs generalizing d with
  | nil => exact h
  | cons c cs ih =>
    simp only [addMissingCols]
    by_cases hm : c ∈ d.cols
    · rw [if_pos hm]; exact ih h
    · rw [if_neg hm]; exact ih (extend_wf h c)

theorem addMissingCols_cols_sub {cs : List String} {d : DF} {x : String}
    (h : x ∈ d.cols) : x ∈ (addMissingCols cs d).cols := by
  induction cs generalizing d with
  | nil => exact h
  | cons c cs ih =>
    simp only [addMissingCols]
    by_cases hm : c ∈ d.cols
    · rw [if_pos hm]; exact ih h
    · rw [if_neg hm]; exact ih (by simp [h])

theorem addMissingCols_getCol {cs : List String} {d : DF} (hwf : d.wf) {c : String}
    (hc : c ∈ d.cols) : (addMissingCols cs d).getCol c = d.getCol c := by
  induction cs generalizing d with
  | nil => rfl
  | cons c2 cs ih =>
    simp only [addMissingCols]
    by_cases hm : c2 ∈ d.cols
    · rw [if_pos hm]; exact ih hwf hc
    · rw [if_neg hm]
      rw [ih (extend_wf hwf c2) (List.mem_append_left _ hc)]
      unfold DF.getCol
      simp only [List.map_map]
      apply List.map_congr_left
      intro r hr
      simp only [Function.comp_apply]
      rw [colIdx_append_left hc, getD_append_lt]
      rw [hwf r hr]
      exact colIdx_lt_length hc

theorem addMissingCols_backfill {cs : List String} {d : DF} (hwf : d.wf) {c : String}
    (hc1 : c ∉ d.cols) (hc2 : c ∈ cs) :
    (addMissingCols cs d).getCol c = List.replicate d.rows.length (Cell.strV "") := by
  induction cs generalizing d with
  | nil => cases hc2
  | cons c2 cs ih =>
    simp only [addMissingCols]
    by_cases he : c2 = c
    · subst he
      rw [if_neg hc1]
      rw [addMissingCols_getCol (extend_wf hwf c2) (by simp)]
      unfold DF.getCol
      simp only [List.map_map]
      rw [colIdx_append_right hc1]
      apply List.eq_replicate_iff.mpr
      constructor
      · simp
      · intro b hb
        simp only [List.mem_map, Function.comp_apply] at hb
        obtain ⟨r0, hr0, rfl⟩ := hb
        have : colIdx [c2] c2 = 0 := by simp [colIdx]
        rw [this, Nat.add_zero, ← hwf r0 hr0, getD_append_len]
        rfl
    · have hc3 : c ∈ cs := by
        rcases List.mem_cons.mp hc2 with h | h
        · exact absurd h.symm he
        · exact h
      by_cases hm : c2 ∈ d.cols
      · rw [if_pos hm]; exact ih hwf hc1 hc3
      · rw [if_neg hm]
        have hc4 : c ∉ d.cols ++ [c2] := by
          intro hx
          rcases List.mem_append.mp hx with h | h
          · exact hc1 h
          · simp at h; exact he h.symm
        rw [ih (extend_wf hwf c2) hc4 hc3]
        simp

/-!  ## Lemmas about `load_issues`  -/

theorem dfFromRecords_wf (recs : List (List (String × Cell))) :
    (dfFromRecords recs).wf := by
  intro r hr
  unfold dfFromRecords at hr ⊢
  simp only [List.mem_map] at hr
  obtain ⟨r0, _, rfl⟩ := hr
  simp

theorem mem_cols_dfFromRecords {recs : List (List (String × Cell))} {x : String}
    (h : x ∈ (dfFromRecords recs).cols) : ∃ r ∈ recs, ∃ y, (x, y) ∈ r := by
  unfold dfFromRecords at h
  simp only at h
  rw [List.mem_dedup] at h
  simp only [List.mem_flatMap, List.mem_map] at h
  obtain ⟨r, hr, hx⟩ := h
  obtain ⟨⟨a, b⟩, hab, rfl⟩ := hx
  exact ⟨r, hr, b, hab⟩

theorem records_key_mem_header {s : Store} {r : List (String × Cell)}
    (hr : r ∈ getAllRecords s) {x : String} {y : Cell} (hxy : (x, y) ∈ r) :
    x ∈ storeHeader s := by
  unfold getAllRecords at hr
  simp only [List.mem_map] at hr
  obtain ⟨row, _, rfl⟩ := hr
  exact (List.of_mem_zip hxy).1

theorem load_issues_cols (s : Store) :
    ((load_issues s).2).cols = EXPECTED_COLUMNS := by
  simp only [load_issues]
  split
  · rfl
  · rfl

theorem load_issues_backfill (s : Store) {c : String} (hcE : c ∈ EXPECTED_COLUMNS)
    (hch : c ∉ storeHeader (ensureHeader s)) :
    ((load_issues s).2).getCol c =
      List.replicate ((load_issues s).2).rows.length (Cell.strV "") := by
  simp only [load_issues]
  split
  · simp [DF.getCol]
  · rw [getCol_reindex hcE]
    have hwf := dfFromRecords_wf (getAllRecords (ensureHeader s))
    have hnc : c ∉ (dfFromRecords (getAllRecords (ensureHeader s))).cols := by
      intro hx
      obtain ⟨r, hr, y, hxy⟩ := mem_cols_dfFromRecords hx
      exact hch (records_key_mem_header hr hxy)
    unfold addMissing
    rw [addMissingCols_backfill hwf hnc hcE, reindex_rows_length,
      addMissingCols_rows_length]

theorem load_issues_of_empty {s : Store} (h : s.grid = []) :
    load_issues s = (⟨[EXPECTED_COLUMNS.map Cell.strV]⟩, ⟨EXPECTED_COLUMNS, []⟩) := by
  obtain ⟨g⟩ := s
  simp only at h
  cases h
  rfl

/-!  ## Lemmas about the id computation and the Add Issue handler  -/

theorem foldlM_cellMax2_int {rest : List Cell}
    (hall : ∀ c ∈ rest, c.isInt = true) (a : Int) :
    rest.foldlM cellMax2 (Cell.intV a) =
      Except.ok (Cell.intV ((rest.map cellInt).foldl max a)) := by
  induction rest generalizing a with
  | nil => rfl
  | cons c cs ih =>
    obtain ⟨b, rfl⟩ : ∃ b, c = Cell.intV b := by
      cases c with
      | intV b => exact ⟨b, rfl⟩
      | strV t => exact absurd (hall _ (List.mem_cons_self _ _)) (by simp [Cell.isInt])
    have hcs : ∀ x ∈ cs, x.isInt = true := fun x hx => hall x (List.mem_cons_of_mem _ hx)
    rw [List.foldlM_cons]
    show ((Except.ok (Cell.intV (max a b)) : Except Unit Cell) >>=
      fun x => cs.foldlM cellMax2 x) = _
    show cs.foldlM cellMax2 (Cell.intV (max a b)) = _
    rw [ih hcs]
    rfl

theorem seriesMax_int {l : List Cell} (hne : l ≠ [])
    (hall : ∀ c ∈ l, c.isInt = true) :
    seriesMax l = Except.ok (Cell.intV (idsMax (l.map cellInt))) := by
  cases l with
  | nil => cases hne rfl
  | cons c cs =>
    obtain ⟨b, rfl⟩ : ∃ b, c = Cell.intV b := by
      cases c with
      | intV b => exact ⟨b, rfl⟩
      | strV t => exact absurd (hall _ (List.mem_cons_self _ _)) (by simp [Cell.isInt])
    show cs.foldlM cellMax2 (Cell.intV b) = _
    rw [foldlM_cellMax2_int (fun x hx => hall x (List.mem_cons_of_mem _ hx)) b]
    rfl

theorem newIssueId_int {df : DF}
    (hall : ∀ c ∈ df.getCol "Issue ID", c.isInt = true) :
    newIssueId df = Except.ok (idsMax ((df.getCol "Issue ID").map cellInt) + 1) := by
  unfold newIssueId
  by_cases h : df.rows = []
  · rw [if_pos h]
    have hg : df.getCol "Issue ID" = [] := by simp [DF.getCol, h]
    rw [hg]
    rfl
  · rw [if_neg h]
    have hne : df.getCol "Issue ID" ≠ [] := by
      simp only [DF.getCol, ne_eq, List.map_eq_nil_iff]
      exact h
    rw [seriesMax_int hne hall]
    rfl

theorem addIssue_invalid {inp : AddInput} (hinv : invalidInput inp)
    (s : Store) (now : String) :
    addIssue s now inp = (s, Except.error (firstError inp)) := by
  by_cases hc : inp.category = "— Select —"
  · simp only [addIssue, firstError, if_pos hc]
  · by_cases hd : pyStrip inp.description = ""
    · simp only [addIssue, firstError, if_neg hc, if_pos hd]
    · have hs : (inp.category = "Mailing Room" ∨ inp.category = "Client Communication")
          ∧ inp.subcategory = [] := by
        rcases hinv with h | h | h
        · exact absurd h hc
        · exact absurd h hd
        · exact h
      simp only [addIssue, firstError, if_neg hc, if_neg hd, if_pos hs]

/-!  ## Claim theorems  -/

/-- C2: for every stored table (including a missing-column or empty
store), `load_issues` returns a frame exposing exactly the eleven
canonical columns in canonical order, with every expected column absent
from the stored header backfilled with the empty string; on an empty
store it initialises the header and returns a frame with 0 rows and the
11 canonical columns. -/
theorem C2_load_canonical_schema (s : Store) :
    ((load_issues s).2).cols = EXPECTED_COLUMNS
    ∧ (∀ c ∈ EXPECTED_COLUMNS, c ∉ storeHeader (ensureHeader s) →
        ((load_issues s).2).getCol c =
          List.replicate ((load_issues s).2).rows.length (Cell.strV ""))
    ∧ (s.grid = [] →
        (load_issues s).1 = ⟨[EXPECTED_COLUMNS.map Cell.strV]⟩
        ∧ (load_issues s).2 = ⟨EXPECTED_COLUMNS, []⟩) :=
  ⟨load_issues_cols s,
   fun _ hcE hch => load_issues_backfill s hcE hch,
   fun h => by rw [load_issues_of_empty h]; exact ⟨rfl, rfl⟩⟩

/-- Witness for C2: a stored table whose header is only "Description" gets
all eleven canonical columns on load, with "Notes" backfilled empty, and
the empty store loads as the empty canonical frame. -/
theorem C2_witness :
    ((load_issues storeNoId).2).cols = EXPECTED_COLUMNS
    ∧ ((load_issues storeNoId).2).getCol "Notes" = [Cell.strV ""]
    ∧ (load_issues ⟨[]⟩).2 = ⟨EXPECTED_COLUMNS, []⟩ := by
  refine ⟨(C2_load_canonical_schema storeNoId).1, ?_, ?_⟩
  · have h := (C2_load_canonical_schema storeNoId).2.1 "Notes" (by decide) (by decide)
    exact h.trans (by decide)
  · exact ((C2_load_canonical_schema ⟨[]⟩).2.2 rfl).2

/-- C1: on a valid submission, when every "Issue ID" cell of the loaded
table is an integer, the add operation returns the loaded table with
exactly one row appended; the appended row carries id
`max(ids, default 0) + 1` (so id 1 on an empty table). -/
theorem C1_add_assigns_next_id (s : Store) (now : String) (inp : AddInput)
    (h1 : inp.category ≠ "— Select —")
    (h2 : pyStrip inp.description ≠ "")
    (h3 : ¬((inp.category = "Mailing Room" ∨ inp.category = "Client Communication")
        ∧ inp.subcategory = []))
    (hall : ∀ c ∈ ((load_issues s).2).getCol "Issue ID", c.isInt = true) :
    (addIssue s now inp).2 =
      Except.ok
        (⟨((load_issues s).2).cols,
          ((load_issues s).2).rows ++
            [newRow now inp
              (idsMax ((((load_issues s).2).getCol "Issue ID").map cellInt) + 1)]⟩,
         idsMax ((((load_issues s).2).getCol "Issue ID").map cellInt) + 1) := by
  simp only [addIssue, if_neg h1, if_neg h2, if_neg h3]
  rw [newIssueId_int hall]

/-- Witness for C1: on the empty store the first issue gets id 1, and on a
store whose ids are 1, 2, 5 the appended row gets id 6. -/
theorem C1_witness :
    (addIssue ⟨[]⟩ "2024-01-01 00:00:00" inpOK).2 =
      Except.ok (⟨EXPECTED_COLUMNS, [newRow "2024-01-01 00:00:00" inpOK 1]⟩, 1)
    ∧ (addIssue store125 "2024-01-01 00:00:00" inpOK).2 =
      Except.ok
        (⟨((load_issues store125).2).cols,
          ((load_issues store125).2).rows ++ [newRow "2024-01-01 00:00:00" inpOK 6]⟩,
         6) := by
  constructor
  · have h := C1_add_assigns_next_id ⟨[]⟩ "2024-01-01 00:00:00" inpOK
      (by decide) (by decide) (by decide) (by decide)
    exact h.trans (by decide)
  · have h := C1_add_assigns_next_id store125 "2024-01-01 00:00:00" inpOK
      (by decide) (by decide) (by decide) (by decide)
    exact h.trans (by decide)

/-- C7: the add operation fails closed.  Any submission with an unselected
category, a whitespace-only description, or a required-but-empty
subcategory set is rejected with the corresponding error and the store is
left untouched; a successful append implies all three checks passed. -/
theorem C7_validation_fails_closed (s : Store) (now : String) (inp : AddInput) :
    (invalidInput inp → addIssue s now inp = (s, Except.error (firstError inp)))
    ∧ (∀ r, (addIssue s now inp).2 = Except.ok r → ¬ invalidInput inp) :=
  ⟨fun hinv => addIssue_invalid hinv s now,
   fun r hr hinv => by rw [addIssue_invalid hinv s now] at hr; simp at hr⟩

/-- Witness for C7: a "Mailing Room" submission with no subcategory is
rejected and the store is unchanged. -/
theorem C7_witness :
    addIssue store125 "2024-01-01 00:00:00" inpBad =
      (store125, Except.error AddError.missingSubcategory) := by
  have h := (C7_validation_fails_closed store125 "2024-01-01 00:00:00" inpBad).1
    (by decide)
  exact h.trans (by decide)

/-- C10: the id-assignment step is partial.  On a store whose header
lacks "Issue ID", the loaded table is non-empty, its "Issue ID" column
holds the backfilled empty string, `int(df["Issue ID"].max())` raises
(`int("")` is a `ValueError`), and the add operation fails with no write:
the store is returned unchanged. -/
theorem C10_id_computation_partial :
    ((load_issues storeNoId).2).rows ≠ []
    ∧ ((load_issues storeNoId).2).getCol "Issue ID" = [Cell.strV ""]
    ∧ newIssueId ((load_issues storeNoId).2) = Except.error ()
    ∧ addIssue storeNoId "2024-01-01 00:00:00" inpOK =
        (storeNoId, Except.error AddError.idError) :=
  ⟨by decide, by decide, by decide, by decide⟩

/-- C9: a non-canonical column in a non-empty stored table is silently
dropped by `load_issues` (it is not among the loaded columns), and
`save_issues` persists only the eleven canonical columns, so the extra
column disappears from the store. -/
theorem C9_extra_column_dropped (s : Store) (c : String)
    (h1 : s.grid ≠ []) (h2 : c ∈ storeHeader s) (hc : c ∉ EXPECTED_COLUMNS) :
    c ∉ ((load_issues s).2).cols
    ∧ storeHeader (save_issues ((load_issues s).2)) = EXPECTED_COLUMNS
    ∧ c ∉ storeHeader (save_issues ((load_issues s).2))
    ∧ (∀ r ∈ (save_issues ((load_issues s).2)).grid,
        r.length = EXPECTED_COLUMNS.length) := by
  have hhdr : storeHeader (save_issues ((load_issues s).2)) = EXPECTED_COLUMNS := by
    unfold save_issues storeHeader
    simp only [List.headD_cons, List.map_map]
    have hcomp : cellStr ∘ Cell.strV = id := funext fun t => rfl
    rw [hcomp, List.map_id]
  refine ⟨?_, hhdr, ?_, ?_⟩
  · rw [load_issues_cols]; exact hc
  · rw [hhdr]; exact hc
  · intro r hr
    unfold save_issues at hr
    rcases List.mem_cons.mp hr with h | h
    · subst h; simp
    · simp only [List.mem_map] at h
      obtain ⟨r0, hr0, rfl⟩ := h
      simp only [reindex, List.mem_map] at hr0
      obtain ⟨r1, _, rfl⟩ := hr0
      simp

/-- Witness for C9: the "Extra" column of `storeExtra` is gone after load,
and the store written back carries exactly the canonical header. -/
theorem C9_witness :
    "Extra" ∉ ((load_issues storeExtra).2).cols
    ∧ storeHeader (save_issues ((load_issues storeExtra).2)) = EXPECTED_COLUMNS := by
  have h := C9_extra_column_dropped storeExtra "Extra" (by decide) (by decide) (by decide)
  exact ⟨h.1, h.2.1⟩

/-- C4: searching with the empty keyword returns the frame unchanged:
same rows, same order. -/
theorem C4_empty_keyword_returns_all (df : DF) : searchDF df "" = some df := by
  simp [searchDF]

/-- The `.replace("", pd.NA).dropna()` steps equal a filter on
non-emptiness. -/
theorem reduceOption_map_blankToNA (l : List String) :
    (l.map blankToNA).reduceOption = l.filter (fun s => s ≠ "") := by
  induction l with
  | nil => rfl
  | cons s ss ih =>
    by_cases h : s = ""
    · subst h
      simp [blankToNA, ih]
    · simp [blankToNA, h, ih]

/-- C5: the multi-valued tally pipeline splits each cell on `", "`,
discards empty cells, flattens and tallies; on a column holding
"Avian, Virology" and "Avian" it counts Avian twice and Virology once. -/
theorem C5_multivalue_tally :
    (∀ df col label, countsByMultivalue df col label =
      specMultiCount ((df.getCol col).map cellStr) label)
    ∧ countsByMultivalue dfC5 "Lab Section" "Avian" = 2
    ∧ countsByMultivalue dfC5 "Lab Section" "Virology" = 1 := by
  refine ⟨?_, by decide, by decide⟩
  intro df col label
  unfold countsByMultivalue specMultiCount
  rw [reduceOption_map_blankToNA]
  rfl

/-- A string has positive length exactly when it is not the empty
string. -/
theorem decide_length_pos (s : String) :
    decide (s.length > 0) = decide (s ≠ "") := by
  rcases s with ⟨l⟩
  cases l with
  | nil => rfl
  | cons c cs =>
    have h1 : (String.mk (c :: cs)).length > 0 := Nat.succ_pos cs.length
    have h2 : String.mk (c :: cs) ≠ "" := by
      intro h
      have hd := congrArg String.data h
      simp at hd
    rw [decide_eq_true h1, decide_eq_true h2]

/-- C6: on a non-empty table the dashboard metrics are
`total = |T|`, `resolved` = number of rows with a non-empty
"Resolution Date", `open = total - resolved`, and
`rate = resolved / total × 100`; on an empty table no stats are
produced. -/
theorem C6_resolution_stats (df : DF) (h : df.rows ≠ []) :
    resolutionStats df =
      some ⟨df.rows.length,
        ((df.getCol "Resolution Date").map cellStr).countP (fun s => s ≠ ""),
        df.rows.length -
          ((df.getCol "Resolution Date").map cellStr).countP (fun s => s ≠ ""),
        some ((((df.getCol "Resolution Date").map cellStr).countP
            (fun s => s ≠ "") : ℚ) / (df.rows.length : ℚ) * 100)⟩
    ∧ resolutionStats ⟨EXPECTED_COLUMNS, []⟩ = none := by
  constructor
  · have hP : ((df.getCol "Resolution Date").map cellStr).countP
        (fun s => decide (s.length > 0)) =
        ((df.getCol "Resolution Date").map cellStr).countP (fun s => decide (s ≠ "")) := by
      apply List.countP_congr
      intro s _
      rw [decide_length_pos s]
    simp only [resolutionStats, if_neg h]
    rw [hP, if_pos (List.length_pos.mpr h)]
  · rfl

/-- Witness for C6: a 4-row table with one resolved issue yields
`{total: 4, resolved: 1, open: 3, resolution_rate: 25.0}`. -/
theorem C6_witness : resolutionStats df4 = some ⟨4, 1, 3, some 25⟩ := by
  have h := (C6_resolution_stats df4 (by decide)).1
  rw [h]
  have hc : ((df4.getCol "Resolution Date").map cellStr).countP
      (fun s => decide (s ≠ "")) = 1 := by decide
  have hl : df4.rows.length = 4 := by decide
  rw [hc, hl]
  norm_num

/-!  ## Lemmas about the search filter  -/

theorem parseToks_lits {l : List Char} (h : ∀ c ∈ l, isMeta c = false) :
    parseToks l = some (litToks l) := by
  induction l with
  | nil => rfl
  | cons c rest ih =>
    have hc : isMeta c = false := h c (List.mem_cons_self _ _)
    have hcdot : c ≠ '.' := by
      intro e
      subst e
      exact absurd hc (by decide)
    have hatom : parseAtom c = some (RAtom.lit c) := by
      unfold parseAtom
      rw [if_neg hcdot, if_neg (by simp [hc])]
    have ihrest : parseToks rest = some (litToks rest) :=
      ih (fun x hx => h x (List.mem_cons_of_mem _ hx))
    cases rest with
    | nil => simp [parseToks, hatom, litToks]
    | cons q rest2 =>
      have hq : isMeta q = false := h q (by simp)
      have hq1 : q ≠ '*' := by intro e; subst e; exact absurd hq (by decide)
      have hq2 : q ≠ '+' := by intro e; subst e; exact absurd hq (by decide)
      have hq3 : q ≠ '?' := by intro e; subst e; exact absurd hq (by decide)
      simp only [parseToks, hatom, if_neg hq1, if_neg hq2, if_neg hq3, ihrest,
        Option.map_some']
      simp [litToks]

theorem reMatchHere_lits (l : List Char) (cs : List Char) :
    reMatchHere (litToks l) cs = true ↔
      l.map Char.toLower <+: cs.map Char.toLower := by
  induction l generalizing cs with
  | nil => simp [litToks, reMatchHere]
  | cons a l2 ih =>
    cases cs with
    | nil => simp [litToks, reMatchHere]
    | cons c cs2 =>
      have : litToks (a :: l2) = (RAtom.lit a, RQuant.one) :: litToks l2 := rfl
      rw [this]
      simp only [reMatchHere, atomMatch, Bool.and_eq_true, decide_eq_true_eq,
        List.map_cons, List.cons_prefix_cons]
      exact and_congr Iff.rfl (ih cs2)

theorem reSearchFrom_lits (l : List Char) (cs : List Char) :
    reSearchFrom (litToks l) cs = true ↔
      l.map Char.toLower <:+: cs.map Char.toLower := by
  induction cs with
  | nil =>
    show reMatchHere (litToks l) [] = true ↔ _
    rw [reMatchHere_lits]
    simp
  | cons c cs2 ih =>
    show (reMatchHere (litToks l) (c :: cs2) || reSearchFrom (litToks l) cs2) = true ↔ _
    rw [Bool.or_eq_true, reMatchHere_lits, ih, List.map_cons, List.infix_cons_iff]

theorem reSearch_eq_containsCI (s kw : String) :
    reSearchFrom (litToks kw.toList) s.toList = containsCI s kw := by
  rcases hb : containsCI s kw with _ | _
  · rw [← Bool.not_eq_true]
    rw [reSearchFrom_lits]
    unfold containsCI at hb
    simpa using hb
  · rw [reSearchFrom_lits]
    unfold containsCI at hb
    simpa using hb

/-- C3 as stated is false: the keyword is interpreted as a regular
expression, not a literal.  The keyword "." keeps a row none of whose
cells contains "." as a literal substring. -/
theorem C3_counterexample :
    searchDF dfDot "." = some dfDot ∧ containsCI "abc" "." = false := by
  constructor
  · simp [searchDF, pyReParse, parseToks, parseAtom, isMeta, reSearchFrom,
      reMatchHere, atomMatch, dfDot, cellStr]
  · decide

/-- C3 (amended): for every non-empty keyword made only of characters that
are not regex metacharacters, the search filter keeps exactly the rows in
which some cell's string form contains the keyword as a case-insensitive
literal substring. -/
theorem C3_search_literal_keywords (df : DF) (kw : String) (h1 : kw ≠ "")
    (h2 : ∀ c ∈ kw.toList, isMeta c = false) :
    searchDF df kw =
      some ⟨df.cols,
        df.rows.filter (fun r => r.any (fun c => containsCI (cellStr c) kw))⟩ := by
  unfold searchDF pyReParse
  rw [if_neg h1, parseToks_lits h2, Option.map_some']
  have hfun : (fun r : List Cell =>
      r.any (fun c => reSearchFrom (litToks kw.toList) (cellStr c).toList)) =
      (fun r : List Cell => r.any (fun c => containsCI (cellStr c) kw)) := by
    funext r
    congr 1
    funext c
    exact reSearch_eq_containsCI (cellStr c) kw
  rw [hfun]

/-- Witness for the amended C3: searching `dfKW` for "broken" keeps
exactly the row containing "Broken Sample" (case-insensitively). -/
theorem C3_witness :
    searchDF dfKW "broken" = some ⟨dfKW.cols, [[Cell.strV "Broken Sample"]]⟩ := by
  have h := C3_search_literal_keywords dfKW "broken" (by decide) (by decide)
  exact h.trans (by decide)

end IssueTracker
